import Mathlib

/-!
Verification of the outbound request orchestration layer of the vinyl-dash
gateway: sliding-window rate limiter (rateLimiter), request queue with
deduplication, batching and exponential backoff (requestQueue), and the
cache store (generateCacheKey / getCache / setCache).

Times are modelled as `Int` milliseconds (JS `Date.now()`), registries
(JS `Map`) as association lists with first-match semantics, and the
fallible backing store as functions returning `Except`.
-/

namespace VinylDash

/-- JS `Map.get`: first binding of the key, if any. -/
def mapLookup {β : Type} (k : String) : List (String × β) → Option β
  | [] => none
  | (k2, v) :: rest => if k2 = k then some v else mapLookup k rest

/-- JS `Map.set`: replace the binding of the key or append a fresh one. -/
def mapSet {β : Type} (k : String) (v : β) : List (String × β) → List (String × β)
  | [] => [(k, v)]
  | (k2, v2) :: rest => if k2 = k then (k, v) :: rest else (k2, v2) :: mapSet k v rest

/-- JS `Map.delete`: remove the binding of the key, if present. -/
def mapErase {β : Type} (k : String) : List (String × β) → List (String × β)
  | [] => []
  | (k2, v2) :: rest => if k2 = k then rest else (k2, v2) :: mapErase k rest

theorem mapLookup_mapSet {β : Type} (k : String) (v : β) (m : List (String × β)) :
    mapLookup k (mapSet k v m) = some v := by
  induction m with
  | nil => simp [mapSet, mapLookup]
  | cons hd tl ih =>
    by_cases h : hd.1 = k
    · simp [mapSet, mapLookup, h]
    · simp [mapSet, mapLookup, h, ih]

/-! ## Rate limiter (src: rateLimiter module)

One sliding-window counter per named upstream resource.  The module keeps a
process-wide `Map` from limiter name to limiter state; we pass that registry
explicitly.  `canMakeRequest` and `recordRequest` log a warning when the
name is unknown; the returned `Bool` records whether that warning fired. -/

structure RateLimiter where
  name : String
  maxRequests : Nat
  windowMs : Int
  timestamps : List Int
deriving DecidableEq, Repr

abbrev Registry := List (String × RateLimiter)

structure CanResult where
  allowed : Bool
  waitMs : Option Int
deriving DecidableEq, Repr

/-- `createRateLimiter(name, maxRequests, windowMs)`: return the existing
limiter unchanged when the name is registered, otherwise register a fresh
limiter with an empty timestamp list. -/
def createRateLimiter (limiters : Registry) (name : String) (maxRequests : Nat)
    (windowMs : Int) : RateLimiter × Registry :=
  match mapLookup name limiters with
  | some l => (l, limiters)
  | none =>
      let l : RateLimiter :=
        { name := name, maxRequests := maxRequests, windowMs := windowMs, timestamps := [] }
      (l, mapSet name l limiters)

/-- `canMakeRequest(limiterName)` at time `now`: unknown limiter logs a
warning and allows; otherwise prune timestamps `≤ now - windowMs`, admit
when the pruned count is below `maxRequests`, and otherwise report the wait
until the oldest retained timestamp leaves the window.  (When the pruned
list is empty and `maxRequests = 0` the JS code computes `NaN`; that
unrepresentable value is modelled as `none`.)  Returns the result, the
updated registry, and whether the unknown-limiter warning fired. -/
def canMakeRequest (limiters : Registry) (limiterName : String) (now : Int) :
    CanResult × Registry × Bool :=
  match mapLookup limiterName limiters with
  | none => (⟨true, none⟩, limiters, true)
  | some limiter =>
      let windowStart := now - limiter.windowMs
      let pruned := limiter.timestamps.filter (fun ts => decide (windowStart < ts))
      let limiters2 := mapSet limiterName { limiter with timestamps := pruned } limiters
      if pruned.length < limiter.maxRequests then
        (⟨true, none⟩, limiters2, false)
      else
        match pruned.head? with
        | some oldest =>
            (⟨false, some (max 0 (oldest + limiter.windowMs - now))⟩, limiters2, false)
        | none => (⟨false, none⟩, limiters2, false)

/-- `recordRequest(limiterName)` at time `now`: unknown limiter logs a
warning and is a no-op; otherwise append `now` and prune timestamps
`≤ now - windowMs`.  Returns the updated registry and whether the warning
fired. -/
def recordRequest (limiters : Registry) (limiterName : String) (now : Int) :
    Registry × Bool :=
  match mapLookup limiterName limiters with
  | none => (limiters, true)
  | some limiter =>
      let ts1 := limiter.timestamps ++ [now]
      let windowStart := now - limiter.windowMs
      let ts2 := ts1.filter (fun ts => decide (windowStart < ts))
      (mapSet limiterName { limiter with timestamps := ts2 } limiters, false)

/-- Claim C4: for a registered limiter with a positive request budget,
`canMakeRequest` first prunes timestamps outside the window (the registry
afterwards holds exactly the pruned list), returns allowed when the pruned
count is strictly below `maxRequests`, and otherwise returns not-allowed
with `waitMs = max 0 (oldest + windowMs - now)` where `oldest` is the head
of the pruned list — its minimum, since recorded timestamps are
non-decreasing. -/
theorem canMakeRequest_sliding_window (limiters : Registry) (name : String) (now : Int)
    (l : RateLimiter) (hlook : mapLookup name limiters = some l)
    (hpos : 0 < l.maxRequests) (hsort : l.timestamps.Sorted (· ≤ ·)) :
    (mapLookup name (canMakeRequest limiters name now).2.1
        = some { l with timestamps := l.timestamps.filter (fun ts => decide (now - l.windowMs < ts)) }) ∧
    ((l.timestamps.filter (fun ts => decide (now - l.windowMs < ts))).length < l.maxRequests →
        (canMakeRequest limiters name now).1 = ⟨true, none⟩) ∧
    (l.maxRequests ≤ (l.timestamps.filter (fun ts => decide (now - l.windowMs < ts))).length →
      ∃ oldest,
        (l.timestamps.filter (fun ts => decide (now - l.windowMs < ts))).head? = some oldest ∧
        (∀ t ∈ l.timestamps.filter (fun ts => decide (now - l.windowMs < ts)), oldest ≤ t) ∧
        (canMakeRequest limiters name now).1
          = ⟨false, some (max 0 (oldest + l.windowMs - now))⟩) := by
  have hfil : (l.timestamps.filter (fun ts => decide (now - l.windowMs < ts))).Sorted (· ≤ ·) :=
    List.Pairwise.filter _ hsort
  refine ⟨?_, ?_, ?_⟩
  · simp only [canMakeRequest, hlook]
    split
    · exact mapLookup_mapSet _ _ _
    · split <;> exact mapLookup_mapSet _ _ _
  · intro hlt
    simp only [canMakeRequest, hlook, if_pos hlt]
  · intro hge
    have hne : l.timestamps.filter (fun ts => decide (now - l.windowMs < ts)) ≠ [] := by
      intro hnil
      rw [hnil] at hge
      simp at hge
      omega
    obtain ⟨oldest, rest, heq⟩ := List.exists_cons_of_ne_nil hne
    have hhead : (l.timestamps.filter (fun ts => decide (now - l.windowMs < ts))).head?
        = some oldest := by
      rw [heq]; rfl
    have hmin : ∀ t ∈ l.timestamps.filter (fun ts => decide (now - l.windowMs < ts)),
        oldest ≤ t := by
      intro t ht
      rw [heq] at ht
      rw [heq] at hfil
      rcases List.mem_cons.mp ht with h1 | h1
      · exact le_of_eq h1.symm
      · exact (List.pairwise_cons.mp hfil).1 t h1
    refine ⟨oldest, hhead, hmin, ?_⟩
    simp only [canMakeRequest, hlook, if_neg (not_lt.mpr hge)]
    rw [heq]
    rfl

/-- Witness for C4 at a concrete registry: limiter `x` with
`maxRequests = 2`, `windowMs = 1000`, two recorded calls at times 10 and
20, checked at time 30: both timestamps survive pruning, so the check is
not allowed and the wait is `10 + 1000 - 30 = 980`. -/
theorem canMakeRequest_sliding_window_witness :
    (canMakeRequest [("x", ⟨"x", 2, 1000, [10, 20]⟩)] "x" 30).1
      = ⟨false, some 980⟩ := by
  have h := canMakeRequest_sliding_window [("x", ⟨"x", 2, 1000, [10, 20]⟩)] "x" 30
      ⟨"x", 2, 1000, [10, 20]⟩ (by decide) (by decide) (by decide)
  obtain ⟨oldest, h1, _, h3⟩ := h.2.2 (by decide)
  have hold : oldest = (10 : Int) := by
    simp at h1
    omega
  rw [h3, hold]
  decide

/-- Claim C8: immediately after an admission check on a registered limiter
returns allowed, the limiter's stored timestamp list is strictly shorter
than `maxRequests` (hence also at most `maxRequests`), and `maxRequests`
itself is unchanged. -/
theorem canMakeRequest_allowed_length_invariant (limiters : Registry) (name : String)
    (now : Int) (l : RateLimiter) (hlook : mapLookup name limiters = some l)
    (hallowed : (canMakeRequest limiters name now).1.allowed = true) :
    ∃ l2, mapLookup name (canMakeRequest limiters name now).2.1 = some l2 ∧
      l2.maxRequests = l.maxRequests ∧
      l2.timestamps.length < l.maxRequests ∧
      l2.timestamps.length ≤ l.maxRequests := by
  simp only [canMakeRequest, hlook] at hallowed ⊢
  by_cases hlt :
      (l.timestamps.filter (fun ts => decide (now - l.windowMs < ts))).length < l.maxRequests
  · rw [if_pos hlt]
    exact ⟨{ l with timestamps := l.timestamps.filter (fun ts => decide (now - l.windowMs < ts)) },
      mapLookup_mapSet _ _ _, rfl, hlt, le_of_lt hlt⟩
  · rw [if_neg hlt] at hallowed
    exfalso
    split at hallowed <;> simp at hallowed

/-- Witness for C8: limiter `x` with budget 2 and one stale timestamp;
the check at time 2000 prunes it and is allowed, leaving 0 < 2 timestamps. -/
theorem canMakeRequest_allowed_length_invariant_witness :
    ∃ l2, mapLookup "x" (canMakeRequest [("x", ⟨"x", 2, 1000, [10]⟩)] "x" 2000).2.1 = some l2 ∧
      l2.maxRequests = 2 ∧ l2.timestamps.length < 2 ∧ l2.timestamps.length ≤ 2 :=
  canMakeRequest_allowed_length_invariant [("x", ⟨"x", 2, 1000, [10]⟩)] "x" 2000
    ⟨"x", 2, 1000, [10]⟩ (by decide) (by decide)

/-- Counterexample to C9 as stated: with an empty registry (no limiter
registered for `discogs`), `canMakeRequest` does not fail — it returns
allowed with no wait — and `recordRequest` silently leaves the registry
unchanged.  The code only logs a warning and permits unlimited traffic. -/
theorem unknown_limiter_counterexample :
    (canMakeRequest [] "discogs" 0).1 = ⟨true, none⟩ ∧
    (recordRequest [] "discogs" 0).1 = [] := by
  constructor <;> rfl

/-- Claim C9 amended: calling `canMakeRequest` or `recordRequest` with a
resource name that has no registered limiter does not fail: it logs a
warning (the `true` flag) and silently allows — `canMakeRequest` returns
allowed with no wait and leaves the registry unchanged, and
`recordRequest` is a no-op on the registry. -/
theorem unknown_limiter_silently_allows (limiters : Registry) (name : String) (now : Int)
    (hlook : mapLookup name limiters = none) :
    canMakeRequest limiters name now = (⟨true, none⟩, limiters, true) ∧
    recordRequest limiters name now = (limiters, true) := by
  constructor
  · simp only [canMakeRequest, hlook]
  · simp only [recordRequest, hlook]

/-- Witness for the amended C9 at the empty registry. -/
theorem unknown_limiter_silently_allows_witness :
    canMakeRequest [] "getsongbpm" 5 = (⟨true, none⟩, [], true) ∧
    recordRequest [] "getsongbpm" 5 = ([], true) :=
  unknown_limiter_silently_allows [] "getsongbpm" 5 (by rfl)

/-- Claim C10: `createRateLimiter` on an already-registered name returns
the existing limiter object and leaves the registry untouched — the new
`maxRequests` and `windowMs` arguments are ignored, and the recorded
timestamps are unaffected. -/
theorem createRateLimiter_first_wins (limiters : Registry) (name : String)
    (maxRequests : Nat) (windowMs : Int) (l : RateLimiter)
    (hlook : mapLookup name limiters = some l) :
    createRateLimiter limiters name maxRequests windowMs = (l, limiters) := by
  simp only [createRateLimiter, hlook]

/-- Witness for C10: re-registering `discogs` with different parameters
returns the original limiter, timestamps included, and the registry is
unchanged. -/
theorem createRateLimiter_first_wins_witness :
    createRateLimiter [("discogs", ⟨"discogs", 25, 60000, [7]⟩)] "discogs" 99 1
      = (⟨"discogs", 25, 60000, [7]⟩, [("discogs", ⟨"discogs", 25, 60000, [7]⟩)]) :=
  createRateLimiter_first_wins [("discogs", ⟨"discogs", 25, 60000, [7]⟩)] "discogs" 99 1
    ⟨"discogs", 25, 60000, [7]⟩ (by decide)

/-! ## Cache store (src: redis cache module)

The backing store is a possibly-absent client whose operations can fail;
JSON serialization and parsing are likewise fallible and are passed in as
`Except`-valued functions.  `getCache` and `setCache` mirror the source's
try/catch structure: every failure of the backing store or of
(de)serialization is caught and downgraded to a miss / no-op. -/

structure RedisClient where
  get : String → Except String (Option String)
  setex : String → Nat → String → Except String Unit

/-- `getCache(key)`: `null` when no client; otherwise `redis.get` under a
try/catch (failure → warn → `null`); a truthy cached string is JSON-parsed
under an inner try/catch (failure → error log → `null`). -/
def getCache (T : Type) (redis : Option RedisClient) (parse : String → Except String T)
    (key : String) : Except String (Option T) :=
  match redis with
  | none => .ok none
  | some client =>
      match client.get key with
      | .error _ => .ok none
      | .ok cached =>
          match cached with
          | some s =>
              if s = "" then .ok none
              else
                match parse s with
                | .error _ => .ok none
                | .ok v => .ok (some v)
          | none => .ok none

/-- `setCache(key, value, ttl)`: no-op when no client; otherwise
`JSON.stringify` then `redis.setex`, with any failure of either caught and
downgraded to a no-op. -/
def setCache (T : Type) (redis : Option RedisClient) (stringify : T → Except String String)
    (key : String) (value : T) (ttl : Nat) : Except String Unit :=
  match redis with
  | none => .ok ()
  | some client =>
      match stringify value with
      | .error _ => .ok ()
      | .ok serialized =>
          match client.setex key ttl serialized with
          | .error _ => .ok ()
          | .ok _ => .ok ()

/-- `generateCacheKey(endpoint, params)`: sort the parameter names
lexicographically, render each as `name:value`, join with `:` and prefix
with the endpoint.  A JS record is modelled as its insertion-ordered key
list plus a value (stringification) function. -/
def generateCacheKey (endpoint : String) (keys : List String) (val : String → String) : String :=
  let sortedParams :=
    String.intercalate ":" ((keys.insertionSort (fun a b => a ≤ b)).map (fun k => k ++ ":" ++ val k))
  endpoint ++ ":" ++ sortedParams

/-- Claim C5: `getCache` and `setCache` never raise — both always return
`.ok` — and a failing backing store or failing JSON parse is reported as a
cache miss (`.ok none`); `setCache` is a no-op returning `.ok ()` no matter
how the store or serialization behaves. -/
theorem cache_never_raises (T : Type) (redis : Option RedisClient)
    (parse : String → Except String T) (stringify : T → Except String String)
    (key : String) (value : T) (ttl : Nat) :
    (∃ v, getCache T redis parse key = .ok v) ∧
    (setCache T redis stringify key value ttl = .ok ()) ∧
    (∀ client e, redis = some client → client.get key = .error e →
        getCache T redis parse key = .ok none) ∧
    (∀ client s e, redis = some client → client.get key = .ok (some s) → s ≠ "" →
        parse s = .error e → getCache T redis parse key = .ok none) := by
  refine ⟨?_, ?_, ?_, ?_⟩
  · match redis with
    | none => exact ⟨none, rfl⟩
    | some client =>
        match hget : client.get key with
        | .error _ => exact ⟨none, by simp [getCache, hget]⟩
        | .ok none => exact ⟨none, by simp [getCache, hget]⟩
        | .ok (some s) =>
            by_cases hs : s = ""
            · exact ⟨none, by simp [getCache, hget, hs]⟩
            · match hp : parse s with
              | .error _ => exact ⟨none, by simp [getCache, hget, hs, hp]⟩
              | .ok v => exact ⟨some v, by simp [getCache, hget, hs, hp]⟩
  · match redis with
    | none => rfl
    | some client =>
        match hser : stringify value with
        | .error _ => simp [setCache, hser]
        | .ok serialized =>
            match hset : client.setex key ttl serialized with
            | .error _ => simp [setCache, hser, hset]
            | .ok _ => simp [setCache, hser, hset]
  · intro client e hr hget
    subst hr
    simp [getCache, hget]
  · intro client s e hr hget hs hp
    subst hr
    simp [getCache, hget, hs, hp]

/-- Witness for C5 with a concrete dead client (every store operation
fails) and a parser that always fails: `getCache` still answers `.ok` and
a store failure is a miss. -/
theorem cache_never_raises_witness :
    (∃ v, getCache Nat (some ⟨fun _ => .error "down", fun _ _ _ => .error "down"⟩)
        (fun _ => .error "bad json") "k" = .ok v) ∧
    (setCache Nat (some ⟨fun _ => .error "down", fun _ _ _ => .error "down"⟩)
        (fun _ => .error "circular") "k" 7 1800 = .ok ()) ∧
    (getCache Nat (some ⟨fun _ => .error "down", fun _ _ _ => .error "down"⟩)
        (fun _ => .error "bad json") "k" = .ok none) := by
  have h := cache_never_raises Nat
      (some ⟨fun _ => .error "down", fun _ _ _ => .error "down"⟩)
      (fun _ => .error "bad json") (fun _ => .error "circular") "k" 7 1800
  exact ⟨h.1, h.2.1, h.2.2.1 ⟨fun _ => .error "down", fun _ _ _ => .error "down"⟩ "down" rfl rfl⟩

/-- Claim C6: `generateCacheKey` is insensitive to parameter insertion
order: for the same set of name/value pairs (key lists that are
permutations of each other, with agreeing values), the generated strings
are identical, because the key list is sorted before concatenation. -/
theorem generateCacheKey_deterministic (endpoint : String) (keys1 keys2 : List String)
    (v1 v2 : String → String) (hperm : keys1.Perm keys2)
    (hval : ∀ k ∈ keys1, v1 k = v2 k) :
    generateCacheKey endpoint keys1 v1 = generateCacheKey endpoint keys2 v2 := by
  have hsorted1 : (keys1.insertionSort (fun a b => a ≤ b)).Sorted (fun a b => a ≤ b) :=
    List.sorted_insertionSort _ keys1
  have hsorted2 : (keys2.insertionSort (fun a b => a ≤ b)).Sorted (fun a b => a ≤ b) :=
    List.sorted_insertionSort _ keys2
  have hp : (keys1.insertionSort (fun a b => a ≤ b)).Perm (keys2.insertionSort (fun a b => a ≤ b)) :=
    ((keys1.perm_insertionSort (fun a b => a ≤ b)).trans hperm).trans
      (keys2.perm_insertionSort (fun a b => a ≤ b)).symm
  have hkeys : keys1.insertionSort (fun a b => a ≤ b) = keys2.insertionSort (fun a b => a ≤ b) :=
    List.eq_of_perm_of_sorted hp hsorted1 hsorted2
  have hmap : (keys1.insertionSort (fun a b => a ≤ b)).map (fun k => k ++ ":" ++ v1 k)
      = (keys2.insertionSort (fun a b => a ≤ b)).map (fun k => k ++ ":" ++ v2 k) := by
    rw [← hkeys]
    apply List.map_congr_left
    intro k hk
    have hk1 : k ∈ keys1 := (keys1.perm_insertionSort (fun a b => a ≤ b)).mem_iff.mp hk
    rw [hval k hk1]
  unfold generateCacheKey
  rw [hmap]

/-- Witness for C6 at the spec's example: `{b:2, a:1}` and `{a:1, b:2}`
give the same key. -/
theorem generateCacheKey_deterministic_witness :
    generateCacheKey "ns" ["b", "a"] (fun k => if k = "a" then "1" else "2")
      = generateCacheKey "ns" ["a", "b"] (fun k => if k = "a" then "1" else "2") :=
  generateCacheKey_deterministic "ns" ["b", "a"] ["a", "b"] _ _
    (List.Perm.swap "a" "b" []) (fun _ _ => rfl)

/-! ## Request queue (src: requestQueue module)

Per-API FIFO queues with deduplication, batching and backoff.  JS promise
plumbing is made explicit: each dedupe key maps to an in-flight entry
holding the identity (`promiseId`) of a shared promise and its creation
time; `attachments` lists the callers subscribed to each shared promise
(`existing.then(resolve).catch(reject)`); settling a queued request
delivers one outcome to its direct caller and to every subscriber of its
shared promise. -/

inductive API
  | discogs
  | getsongbpm
deriving DecidableEq, Repr

abbrev CallerId := Nat

structure QError where
  message : String
  retryAfter : Option Nat
deriving DecidableEq, Repr

/-- A caught JS value: either an `Error` instance or some other thrown
value (rendered by `String(error)`). -/
inductive Thrown
  | err (e : QError)
  | other (s : String)
deriving DecidableEq, Repr

/-- `error instanceof Error ? error : new Error(String(error))`. -/
def toError : Thrown → QError
  | .err e => e
  | .other s => ⟨s, none⟩

/-- `(error as Error & { retryAfter?: number }).retryAfter`; property
access on a non-Error value yields `undefined`. -/
def thrownRetryAfter : Thrown → Option Nat
  | .err e => e.retryAfter
  | .other _ => none

inductive Outcome (T : Type)
  | success (v : T)
  | failure (e : QError)
deriving DecidableEq, Repr

structure QueuedRequest where
  reqId : Nat
  caller : CallerId
  dedupeKey : Option String
  retryCount : Nat
  retryAfter : Option Nat
  promiseId : Option Nat
deriving DecidableEq, Repr

structure InFlightRequest where
  promiseId : Nat
  timestamp : Int
deriving DecidableEq, Repr

structure QueueState where
  queues : API → List QueuedRequest
  inFlightRequests : List (String × InFlightRequest)
  attachments : List (Nat × CallerId)
  nextPid : Nat

def batchSize : Nat := 5
def maxRetries : Nat := 5
def baseBackoffDelay : Nat := 1000
def maxBackoffDelay : Nat := 60000
def staleMs : Int := 5 * 60 * 1000

/-- `calculateBackoffDelay(retryCount, retryAfter)`: a server hint (in
seconds) wins and is converted to milliseconds; otherwise
`min(baseDelay * 2^retryCount, maxDelay)`. -/
def calculateBackoffDelay (retryCount : Nat) (retryAfter : Option Nat) : Nat :=
  match retryAfter with
  | some hint => hint * 1000
  | none => min (baseBackoffDelay * 2 ^ retryCount) maxBackoffDelay

/-- `getInFlightRequest(key)` at time `now`: look up the dedupe entry;
delete and miss when older than 5 minutes, otherwise return its shared
promise. -/
def getInFlightRequest (now : Int) (key : String) (s : QueueState) :
    Option Nat × QueueState :=
  match mapLookup key s.inFlightRequests with
  | some inFlight =>
      if now - inFlight.timestamp > staleMs then
        (none, { s with inFlightRequests := mapErase key s.inFlightRequests })
      else
        (some inFlight.promiseId, s)
  | none => (none, s)

/-- `enqueueRequest(api, requestFn, dedupeKey)` issued by `caller` at time
`now`: with a dedupe key and a live in-flight entry, attach the caller to
the existing shared promise (no queue change); otherwise register a fresh
shared promise (when a key is given) and append a new request at the back
of the api's queue. -/
def enqueueRequest (now : Int) (api : API) (reqId : Nat) (dedupeKey : Option String)
    (caller : CallerId) (s : QueueState) : QueueState :=
  match dedupeKey with
  | some k =>
      match getInFlightRequest now k s with
      | (some p, s1) => { s1 with attachments := (p, caller) :: s1.attachments }
      | (none, s1) =>
          let p := s1.nextPid
          let req : QueuedRequest :=
            { reqId := reqId, caller := caller, dedupeKey := some k,
              retryCount := 0, retryAfter := none, promiseId := some p }
          { s1 with
            nextPid := p + 1,
            inFlightRequests := mapSet k ⟨p, now⟩ s1.inFlightRequests,
            queues := fun a => if a = api then s1.queues a ++ [req] else s1.queues a }
  | none =>
      let req : QueuedRequest :=
        { reqId := reqId, caller := caller, dedupeKey := none,
          retryCount := 0, retryAfter := none, promiseId := none }
      { s with queues := fun a => if a = api then s.queues a ++ [req] else s.queues a }

/-- Callers subscribed to a shared promise. -/
def subscribers (s : QueueState) : Option Nat → List CallerId
  | none => []
  | some p => (s.attachments.filter (fun a => a.1 == p)).map (fun a => a.2)

/-- Settling a queued request delivers one outcome to the direct caller
and to every subscriber of its shared promise. -/
def settleDeliveries (T : Type) (s : QueueState) (r : QueuedRequest) (o : Outcome T) :
    List (CallerId × Outcome T) :=
  (r.caller :: subscribers s r.promiseId).map (fun c => (c, o))

/-- JS `a || b` on an optional number: `0` (and `undefined`) are falsy. -/
def jsOrNat (a b : Option Nat) : Option Nat :=
  match a with
  | some n => if n = 0 then b else some n
  | none => b

/-- Does the text start with the pattern? (char-list version) -/
def startsWithChars : List Char → List Char → Bool
  | [], _ => true
  | _ :: _, [] => false
  | p :: ps, c :: cs => p == c && startsWithChars ps cs

/-- Does the pattern occur anywhere in the text? (char-list version) -/
def containsChars (pat : List Char) : List Char → Bool
  | [] => startsWithChars pat []
  | c :: cs => startsWithChars pat (c :: cs) || containsChars pat cs

/-- JS `String.prototype.includes`, used by `isRateLimitError`: the
message contains `'429'` or `'Rate limit'`. -/
def includesStr (s sub : String) : Bool := containsChars sub.data s.data

def isRateLimitThrown : Thrown → Bool
  | .err e => includesStr e.message "429" || includesStr e.message "Rate limit"
  | .other _ => false

/-- Success path of `processBatch` for one dequeued request: delete the
dedupe entry (if any) and resolve every waiter with the result. -/
def processSuccess (T : Type) (r : QueuedRequest) (v : T) (s : QueueState) :
    QueueState × List (CallerId × Outcome T) :=
  let s1 :=
    match r.dedupeKey with
    | some k => { s with inFlightRequests := mapErase k s.inFlightRequests }
    | none => s
  (s1, settleDeliveries T s r (.success v))

/-- Failure path of `processBatch` for one dequeued request: a
rate-limited failure with retries left schedules a front-of-queue
reinsertion of a retry copy after the backoff delay (the dedupe entry is
kept); any other failure deletes the dedupe entry and rejects every
waiter. Returns the new state, the deliveries, and the scheduled retry
(delay, retry copy), if any. -/
def processFailure (T : Type) (t : Thrown) (r : QueuedRequest) (s : QueueState) :
    QueueState × List (CallerId × Outcome T) × Option (Nat × QueuedRequest) :=
  if isRateLimitThrown t && decide (r.retryCount < maxRetries) then
    let retryAfter := jsOrNat (thrownRetryAfter t) r.retryAfter
    let delay := calculateBackoffDelay r.retryCount retryAfter
    let retryReq : QueuedRequest :=
      { r with retryCount := r.retryCount + 1, retryAfter := retryAfter }
    (s, [], some (delay, retryReq))
  else
    let s1 :=
      match r.dedupeKey with
      | some k => { s with inFlightRequests := mapErase k s.inFlightRequests }
      | none => s
    (s1, settleDeliveries T s r (.failure (toError t)), none)

/-- The timer callback after a retry delay: `unshift` the retry copy onto
the front of the api's queue. -/
def retryReinsert (api : API) (r : QueuedRequest) (s : QueueState) : QueueState :=
  { s with queues := fun a => if a = api then r :: s.queues a else s.queues a }

/-- `queue.splice(0, batchSize)`: the drained batch and the remaining
queue. -/
def takeBatch (q : List QueuedRequest) : List QueuedRequest × List QueuedRequest :=
  (q.take batchSize, q.drop batchSize)

/-- Claim C2: a present server hint of `h` seconds always yields `h * 1000`
ms regardless of `retryCount`; with no hint the delay is
`min(1000 * 2^retryCount, 60000)` ms, so hintless retries 1–5 (pre-increment
counts 0–4) wait 1000, 2000, 4000, 8000, 16000 ms. -/
theorem backoff_delay_spec (retryCount hint : Nat) :
    calculateBackoffDelay retryCount (some hint) = hint * 1000 ∧
    calculateBackoffDelay retryCount none = min (1000 * 2 ^ retryCount) 60000 ∧
    calculateBackoffDelay 0 none = 1000 ∧
    calculateBackoffDelay 1 none = 2000 ∧
    calculateBackoffDelay 2 none = 4000 ∧
    calculateBackoffDelay 3 none = 8000 ∧
    calculateBackoffDelay 4 none = 16000 :=
  ⟨rfl, rfl, by decide, by decide, by decide, by decide, by decide⟩

/-- Claim C3: a failed queued request is rescheduled exactly when the
failure is classified rate-limited and `retryCount < maxRetries` (the
retry copy has `retryCount + 1` and the carried-forward hint, the dedupe
entry is kept, nobody is settled); in every other failure case nothing is
scheduled, the dedupe entry is erased, and the caller is settled with that
failure as terminal. -/
theorem retry_only_rate_limited_under_max (T : Type) (t : Thrown) (r : QueuedRequest)
    (s : QueueState) :
    ((isRateLimitThrown t = true ∧ r.retryCount < maxRetries) →
      processFailure T t r s
        = (s, [],
            some (calculateBackoffDelay r.retryCount (jsOrNat (thrownRetryAfter t) r.retryAfter),
              { r with retryCount := r.retryCount + 1,
                       retryAfter := jsOrNat (thrownRetryAfter t) r.retryAfter }))) ∧
    (¬(isRateLimitThrown t = true ∧ r.retryCount < maxRetries) →
      (processFailure T t r s).2.2 = none ∧
      (∀ k, r.dedupeKey = some k →
        (processFailure T t r s).1.inFlightRequests = mapErase k s.inFlightRequests) ∧
      (r.caller, Outcome.failure (toError t)) ∈ (processFailure T t r s).2.1 ∧
      (∀ d ∈ (processFailure T t r s).2.1, d.2 = Outcome.failure (toError t))) := by
  by_cases h : (isRateLimitThrown t && decide (r.retryCount < maxRetries)) = true
  · constructor
    · intro _
      simp only [processFailure, if_pos h]
    · intro hcon
      exfalso
      rw [Bool.and_eq_true, decide_eq_true_iff] at h
      exact hcon h
  · constructor
    · intro hyes
      exfalso
      apply h
      rw [Bool.and_eq_true, decide_eq_true_iff]
      exact hyes
    · intro _
      refine ⟨?_, ?_, ?_, ?_⟩
      · simp only [processFailure, if_neg h]
      · intro k hk
        simp only [processFailure, if_neg h, hk]
      · simp only [processFailure, if_neg h, settleDeliveries, List.map_cons]
        exact List.mem_cons_self _ _
      · intro d hd
        simp only [processFailure, if_neg h, settleDeliveries] at hd
        obtain ⟨c, _, hc⟩ := List.mem_map.mp hd
        rw [← hc]

/-- Witness for C3: a non-rate-limited failure (message without a marker)
is terminal at retry count 0 — nothing is scheduled and the caller is
rejected with it. -/
theorem retry_only_rate_limited_under_max_witness :
    (processFailure Nat (.err ⟨"boom", none⟩) ⟨1, 2, none, 0, none, none⟩
        ⟨fun _ => [], [], [], 0⟩).2.2 = none ∧
    ((2 : Nat), Outcome.failure (⟨"boom", none⟩ : QError))
      ∈ (processFailure Nat (.err ⟨"boom", none⟩) ⟨1, 2, none, 0, none, none⟩
        ⟨fun _ => [], [], [], 0⟩).2.1 := by
  have h := retry_only_rate_limited_under_max Nat (.err ⟨"boom", none⟩)
      ⟨1, 2, none, 0, none, none⟩ ⟨fun _ => [], [], [], 0⟩
  have h2 := h.2 (by intro hc; exact absurd hc.1 (by decide))
  exact ⟨h2.1, h2.2.2.1⟩

/-- Claim C7: within one resource the queue is FIFO — `enqueueRequest`
appends at the back (both without a dedupe key and when a key misses the
in-flight map), a drain cycle takes the queue's prefix of at most
`batchSize` requests in order — except that a retried request is
reinserted at the front of that resource's queue. -/
theorem fifo_order_with_retry_front (s : QueueState) (now : Int) (api : API) (reqId : Nat)
    (caller : CallerId) (k : String) (r : QueuedRequest) (q : List QueuedRequest) :
    ((enqueueRequest now api reqId none caller s).queues api
      = s.queues api ++ [⟨reqId, caller, none, 0, none, none⟩]) ∧
    (mapLookup k s.inFlightRequests = none →
      (enqueueRequest now api reqId (some k) caller s).queues api
        = s.queues api ++ [⟨reqId, caller, some k, 0, none, some s.nextPid⟩]) ∧
    ((takeBatch q).1 ++ (takeBatch q).2 = q) ∧
    ((takeBatch q).1.length ≤ batchSize) ∧
    ((retryReinsert api r s).queues api = r :: s.queues api) := by
  refine ⟨?_, ?_, ?_, ?_, ?_⟩
  · simp [enqueueRequest]
  · intro h
    simp [enqueueRequest, getInFlightRequest, h]
  · exact List.take_append_drop batchSize q
  · simp [takeBatch]
  · simp [retryReinsert]

/-- Witness for C7: a dedupe-keyed request that misses the empty in-flight
map is appended at the back of the (empty) discogs queue. -/
theorem fifo_order_with_retry_front_witness :
    (enqueueRequest 0 API.discogs 1 (some "k") 2 ⟨fun _ => [], [], [], 0⟩).queues API.discogs
      = [⟨1, 2, some "k", 0, none, some 0⟩] := by
  have h := fifo_order_with_retry_front ⟨fun _ => [], [], [], 0⟩ 0 API.discogs 1 2 "k"
      ⟨0, 0, none, 0, none, none⟩ []
  exact h.2.1 rfl

/-- An enqueue that finds a live (non-stale) in-flight entry only attaches
the caller to the existing shared promise. -/
theorem enqueue_attach (now : Int) (api : API) (reqId : Nat) (k : String)
    (caller : CallerId) (s : QueueState) (e : InFlightRequest)
    (hlook : mapLookup k s.inFlightRequests = some e)
    (hfresh : now - e.timestamp ≤ staleMs) :
    enqueueRequest now api reqId (some k) caller s
      = { s with attachments := (e.promiseId, caller) :: s.attachments } := by
  simp only [enqueueRequest, getInFlightRequest, hlook, if_neg (not_lt.mpr hfresh)]

/-- Folding any number of enqueues that all hit a live in-flight entry
leaves every queue and the in-flight map unchanged, keeps existing
attachments, and attaches every one of the callers to the entry's shared
promise. -/
theorem enqueue_attach_fold (api : API) (reqId : Nat) (k : String) (e : InFlightRequest)
    (calls : List (CallerId × Int)) :
    ∀ s : QueueState, mapLookup k s.inFlightRequests = some e →
      (∀ c ∈ calls, c.2 - e.timestamp ≤ staleMs) →
      (∀ a, (calls.foldl (fun st c => enqueueRequest c.2 api reqId (some k) c.1 st) s).queues a
          = s.queues a) ∧
      ((calls.foldl (fun st c => enqueueRequest c.2 api reqId (some k) c.1 st) s).inFlightRequests
          = s.inFlightRequests) ∧
      (∀ x ∈ s.attachments,
        x ∈ (calls.foldl (fun st c => enqueueRequest c.2 api reqId (some k) c.1 st) s).attachments) ∧
      (∀ c ∈ calls, (e.promiseId, c.1)
          ∈ (calls.foldl (fun st c => enqueueRequest c.2 api reqId (some k) c.1 st) s).attachments) := by
  induction calls with
  | nil =>
      intro s _ _
      exact ⟨fun a => rfl, rfl, fun x hx => hx, by simp⟩
  | cons c rest ih =>
      intro s hlook hfresh
      have hstep := enqueue_attach c.2 api reqId k c.1 s e hlook
        (hfresh c (List.mem_cons_self c rest))
      rw [List.foldl_cons, hstep]
      have ih2 := ih { s with attachments := (e.promiseId, c.1) :: s.attachments }
        hlook (fun c2 hc2 => hfresh c2 (List.mem_cons_of_mem c hc2))
      refine ⟨ih2.1, ih2.2.1, ?_, ?_⟩
      · intro x hx
        exact ih2.2.2.1 x (List.mem_cons_of_mem _ hx)
      · intro c2 hc2
        rcases List.mem_cons.mp hc2 with h1 | h1
        · rw [h1]
          exact ih2.2.2.1 _ (List.mem_cons_self _ _)
        · exact ih2.2.2.2 c2 h1

/-- Claim C1: N concurrent `enqueueRequest` calls with the same dedupe key
while a live (non-stale) in-flight entry for the key exists admit no new
operation to any queue and leave the in-flight map untouched — the
underlying `requestFn` stays the single queued execution — and when that
execution settles, every one of the N callers is among the delivered
waiters and every delivery carries the identical outcome. -/
theorem dedup_single_execution_shared_outcome (T : Type) (s : QueueState) (api : API)
    (reqId : Nat) (k : String) (e : InFlightRequest) (calls : List (CallerId × Int))
    (hlook : mapLookup k s.inFlightRequests = some e)
    (hfresh : ∀ c ∈ calls, c.2 - e.timestamp ≤ staleMs)
    (_hN : 2 ≤ calls.length) :
    (∀ a, (calls.foldl (fun st c => enqueueRequest c.2 api reqId (some k) c.1 st) s).queues a
        = s.queues a) ∧
    ((calls.foldl (fun st c => enqueueRequest c.2 api reqId (some k) c.1 st) s).inFlightRequests
        = s.inFlightRequests) ∧
    (∀ (r : QueuedRequest) (o : Outcome T), r.promiseId = some e.promiseId →
      ∀ c ∈ calls, (c.1, o) ∈ settleDeliveries T
        (calls.foldl (fun st c => enqueueRequest c.2 api reqId (some k) c.1 st) s) r o) ∧
    (∀ (r : QueuedRequest) (o : Outcome T) d,
      d ∈ settleDeliveries T
        (calls.foldl (fun st c => enqueueRequest c.2 api reqId (some k) c.1 st) s) r o →
      d.2 = o) := by
  obtain ⟨hq, hif, hkeep, hmem⟩ := enqueue_attach_fold api reqId k e calls s hlook hfresh
  refine ⟨hq, hif, ?_, ?_⟩
  · intro r o hr c hc
    have hatt := hmem c hc
    have hsub : c.1 ∈ subscribers
        (calls.foldl (fun st c => enqueueRequest c.2 api reqId (some k) c.1 st) s)
        r.promiseId := by
      rw [hr]
      simp only [subscribers, List.mem_map, List.mem_filter]
      exact ⟨(e.promiseId, c.1), ⟨hatt, by simp⟩, rfl⟩
    simp only [settleDeliveries, List.mem_map]
    exact ⟨c.1, List.mem_cons_of_mem _ hsub, rfl⟩
  · intro r o d hd
    simp only [settleDeliveries, List.mem_map] at hd
    obtain ⟨c, _, hc⟩ := hd
    rw [← hc]

/-- Witness for C1: two callers (ids 10 and 11) enqueue under key `k`
while a live entry (promise 0, created at time 100) is in flight; caller
10 is among the waiters delivered the shared success outcome. -/
theorem dedup_single_execution_shared_outcome_witness :
    ((10 : Nat), Outcome.success (42 : Nat)) ∈ settleDeliveries Nat
      (([((10 : Nat), (150 : Int)), (11, 200)]).foldl
        (fun st c => enqueueRequest c.2 API.discogs 5 (some "k") c.1 st)
        ⟨fun _ => [], [("k", ⟨0, 100⟩)], [], 1⟩)
      ⟨5, 9, some "k", 0, none, some 0⟩ (Outcome.success 42) := by
  have h := dedup_single_execution_shared_outcome Nat
      ⟨fun _ => [], [("k", ⟨0, 100⟩)], [], 1⟩ API.discogs 5 "k" ⟨0, 100⟩
      [(10, 150), (11, 200)] (by decide) (by decide) (by decide)
  exact h.2.2.1 ⟨5, 9, some "k", 0, none, some 0⟩ (Outcome.success 42) rfl (10, 150) (by decide)

end VinylDash
